import Mathlib

/-!
Shallow embedding of the salt-updater repository (TheCacophonyProject/salt-updater).

The embedding follows the Go sources:
  * package main, cmd/salt-updater (service.go with runSaltCallSync, runSaltCall,
    trackUpdateProgress, makeEventFromState, extractNumbers, runUpdate);
  * package saltrequester (WriteStateFile, ReadStateFile, UpdateExistsForNodeGroup,
    nodeGroupToBranch, and the older RunUpdate with its fail-open gate).

Modelling conventions:
  * Go time.Time is modelled as an Int counting seconds since 0001-01-01T00:00:00Z
    (the Go zero time corresponds to 0, so IsZero becomes an equality with 0).
  * Go float64 values produced by strconv.ParseFloat are modelled as rationals;
    every value relevant to the claims (small counts and short decimal literals)
    is exact in both representations, and all order comparisons agree.
  * IO effects (the exec of salt-call, the nodegroup file, HTTP, dbus) are
    supplied by explicit environment records; the persisted state file is a
    value of type FS threaded through the functions that touch it.
  * encoding/json is modelled at the level of a JSON value tree; the textual
    RFC3339 rendering of a time.Time inside the state file is kept as an opaque
    time leaf, since the Go library guarantees it unmarshals to the same instant.
-/

/-! ## Generic character and string helpers -/

/-- Take the longest Boolean-predicate run at the head of a character list,
returning the run and the remainder, like List.span. -/
def spanP (p : Char → Bool) : List Char → List Char × List Char
  | [] => ([], [])
  | c :: r => if p c then ((spanP p r).1.cons c, (spanP p r).2) else ([], c :: r)

theorem spanP_snd_length_le (p : Char → Bool) (l : List Char) :
    (spanP p l).2.length ≤ l.length := by
  induction l with
  | nil => simp [spanP]
  | cons c r ih =>
    by_cases h : p c = true
    · simpa [spanP, h] using Nat.le_succ_of_le ih
    · simp [spanP, h]

/-- Decimal digits of a character list read as a natural number (most
significant first); only used on lists known to contain digits. -/
def digitsToNat (l : List Char) : Nat :=
  l.foldl (fun a c => a * 10 + (c.toNat - 48)) 0

/-- All characters are decimal digits and there is at least one. -/
def allDigits1 (l : List Char) : Bool :=
  !l.isEmpty && l.all Char.isDigit

/-- Go strconv.Atoi on an already-trimmed string: an optional sign followed by
at least one digit and nothing else.  The 64-bit range error of the Go
function is not modelled; the values the program stores are tiny. -/
def goAtoi (s : String) : Option Int :=
  match s.toList with
  | '+' :: r => if allDigits1 r then some (digitsToNat r : Int) else none
  | '-' :: r => if allDigits1 r then some (-(digitsToNat r : Int)) else none
  | l => if allDigits1 l then some (digitsToNat l : Int) else none

/-- The ASCII white space characters recognised by Go strings.TrimSpace
(the rare non-ASCII Unicode space code points are not modelled). -/
def isGoSpace (c : Char) : Bool :=
  c = ' ' || c = '\t' || c = '\n' || c = '\x0b' || c = '\x0c' || c = '\r'

/-- Go strings.TrimSpace restricted to ASCII white space. -/
def goTrimSpace (s : String) : String :=
  ⟨(s.toList.dropWhile isGoSpace).reverse.dropWhile isGoSpace |>.reverse⟩

/-- Go strings.TrimSuffix(s, newline): drop one trailing newline if present. -/
def trimNewlineSuffix (s : String) : String :=
  match s.toList.reverse with
  | '\n' :: r => ⟨r.reverse⟩
  | _ => s

/-- Go strings.HasPrefix, on the character lists of the two strings. -/
def goHasPfx (p s : String) : Bool :=
  p.toList.isPrefixOf s.toList

/-- Splitting accumulator: the current part is collected in reverse. -/
def splitLinesAux : List Char → List Char → List String
  | [], cur => [⟨cur.reverse⟩]
  | '\n' :: r, cur => (⟨cur.reverse⟩ : String) :: splitLinesAux r []
  | c :: r, cur => splitLinesAux r (c :: cur)

/-- Go strings.Split(s, newline): the parts of s between newline separators
(one part when there is no newline; a trailing newline yields an empty last
part). -/
def splitLines (s : String) : List String :=
  splitLinesAux s.toList []

/-! ## Go time values

A Go time.Time is modelled as seconds since 0001-01-01T00:00:00Z, so the Go
zero time is the integer 0 and t.After(u) is u < t. -/

def isLeapYear (y : Int) : Bool :=
  (y % 4 = 0 && y % 100 ≠ 0) || y % 400 = 0

/-- Days in the months of a common year, cumulative before each month. -/
def daysBeforeMonth (m : Nat) : Nat :=
  [0, 0, 31, 59, 90, 120, 151, 181, 212, 243, 273, 304, 334].getD m 0

def daysInMonth (y : Int) (m : Nat) : Nat :=
  if m = 2 then (if isLeapYear y then 29 else 28)
  else [0, 31, 0, 31, 30, 31, 30, 31, 31, 30, 31, 30, 31].getD m 0

/-- Seconds since 0001-01-01T00:00:00Z of a proleptic-Gregorian civil datetime. -/
def civilToSeconds (y : Int) (m d hh mm ss : Nat) : Int :=
  let yp : Int := y - 1
  let days : Int :=
    365 * yp + Int.fdiv yp 4 - Int.fdiv yp 100 + Int.fdiv yp 400
      + (daysBeforeMonth m : Int)
      + (if 2 < m && isLeapYear y then 1 else 0)
      + (d : Int) - 1
  days * 86400 + (hh * 3600 + mm * 60 + ss : Nat)

/-- Read exactly two decimal digits. -/
def parse2 : List Char → Option (Nat × List Char)
  | a :: b :: r =>
    if a.isDigit && b.isDigit then some ((a.toNat - 48) * 10 + (b.toNat - 48), r)
    else none
  | _ => none

/-- Read exactly four decimal digits. -/
def parse4 : List Char → Option (Nat × List Char)
  | a :: b :: c :: d :: r =>
    if a.isDigit && b.isDigit && c.isDigit && d.isDigit then
      some (((a.toNat - 48) * 10 + (b.toNat - 48)) * 100
              + (c.toNat - 48) * 10 + (d.toNat - 48), r)
    else none
  | _ => none

/-- Go time.Parse with the fixed layout 2006-01-02T15:04:05Z used by the
program: four-digit year, two-digit month, day, hour, minute and second with
the literal separators, a literal Z, and nothing else; the component ranges
are validated as the Go parser does. -/
def timeParse (s : String) : Option Int :=
  match parse4 s.toList with
  | none => none
  | some (y, r1) =>
    match r1 with
    | '-' :: r2 =>
      match parse2 r2 with
      | none => none
      | some (mo, r3) =>
        match r3 with
        | '-' :: r4 =>
          match parse2 r4 with
          | none => none
          | some (d, r5) =>
            match r5 with
            | 'T' :: r6 =>
              match parse2 r6 with
              | none => none
              | some (hh, r7) =>
                match r7 with
                | ':' :: r8 =>
                  match parse2 r8 with
                  | none => none
                  | some (mm, r9) =>
                    match r9 with
                    | ':' :: r10 =>
                      match parse2 r10 with
                      | none => none
                      | some (ss, r11) =>
                        match r11 with
                        | ['Z'] =>
                          if 1 ≤ mo && mo ≤ 12 && 1 ≤ d && d ≤ daysInMonth (y : Int) mo
                              && hh ≤ 23 && mm ≤ 59 && ss ≤ 59 then
                            some (civilToSeconds (y : Int) mo d hh mm ss)
                          else none
                        | _ => none
                    | _ => none
                | _ => none
            | _ => none
        | _ => none
    | _ => none

/-! ## Package saltrequester: the persisted state record -/

namespace saltrequester

/-- SaltState holds info of the current state of salt (package saltrequester). -/
structure SaltState where
  RunningUpdate : Bool
  RunningArgs : List String
  LastCallOut : String
  LastCallSuccess : Bool
  LastCallNodegroup : String
  LastCallArgs : List String
  LastUpdate : Int
  UpdateProgressPercentage : Int
  UpdateProgressStr : String
deriving DecidableEq, Repr

/-- The Go zero value of SaltState, as produced by new(SaltState). -/
def zeroSaltState : SaltState :=
  { RunningUpdate := false
    RunningArgs := []
    LastCallOut := ""
    LastCallSuccess := false
    LastCallNodegroup := ""
    LastCallArgs := []
    LastUpdate := 0
    UpdateProgressPercentage := 0
    UpdateProgressStr := "" }

/-- JSON value trees as produced and consumed by encoding/json.  A marshalled
time.Time is kept as an opaque time leaf standing for its RFC3339 string,
which the Go library unmarshals back to the same instant. -/
inductive Json where
  | obj (kvs : List (String × Json))
  | arr (elems : List Json)
  | str (s : String)
  | num (q : ℚ)
  | bool (b : Bool)
  | tm (t : Int)

/-- The single state file /etc/cacophony/saltUpdate.json: none when absent. -/
abbrev FS : Type := Option Json

/-- json.Marshal of a SaltState: one JSON object with the exported fields. -/
def marshalSaltState (s : SaltState) : Json :=
  .obj [("RunningUpdate", .bool s.RunningUpdate),
        ("RunningArgs", .arr (s.RunningArgs.map Json.str)),
        ("LastCallOut", .str s.LastCallOut),
        ("LastCallSuccess", .bool s.LastCallSuccess),
        ("LastCallNodegroup", .str s.LastCallNodegroup),
        ("LastCallArgs", .arr (s.LastCallArgs.map Json.str)),
        ("LastUpdate", .tm s.LastUpdate),
        ("UpdateProgressPercentage", .num (s.UpdateProgressPercentage : ℚ)),
        ("UpdateProgressStr", .str s.UpdateProgressStr)]

/-- Decode a JSON value into a Go bool field. -/
def jBool : Option Json → Option Bool
  | some (.bool b) => some b
  | _ => none

/-- Decode a JSON value into a Go string field. -/
def jStr : Option Json → Option String
  | some (.str s) => some s
  | _ => none

/-- Decode a JSON number into a Go int field (must be integral). -/
def jInt : Option Json → Option Int
  | some (.num q) => if q.den = 1 then some q.num else none
  | _ => none

/-- Decode a JSON time leaf into a Go time.Time field. -/
def jTime : Option Json → Option Int
  | some (.tm t) => some t
  | _ => none

/-- Decode a JSON array whose elements are all strings. -/
def allStrs : List Json → Option (List String)
  | [] => some []
  | .str s :: r => (allStrs r).map (fun l => s :: l)
  | _ => none

/-- Decode a JSON value into a Go []string field. -/
def jStrList : Option Json → Option (List String)
  | some (.arr l) => allStrs l
  | _ => none

/-- json.Unmarshal of a JSON value into an existing SaltState: fields whose
key is present with the right type are overwritten, everything else keeps the
value already in the record (decode errors are swallowed by the callers,
whose err variable shadows the unmarshal error). -/
def unmarshalSaltState (init : SaltState) : Json → SaltState
  | .obj kvs =>
    { RunningUpdate := (jBool (kvs.lookup "RunningUpdate")).getD init.RunningUpdate
      RunningArgs := (jStrList (kvs.lookup "RunningArgs")).getD init.RunningArgs
      LastCallOut := (jStr (kvs.lookup "LastCallOut")).getD init.LastCallOut
      LastCallSuccess := (jBool (kvs.lookup "LastCallSuccess")).getD init.LastCallSuccess
      LastCallNodegroup := (jStr (kvs.lookup "LastCallNodegroup")).getD init.LastCallNodegroup
      LastCallArgs := (jStrList (kvs.lookup "LastCallArgs")).getD init.LastCallArgs
      LastUpdate := (jTime (kvs.lookup "LastUpdate")).getD init.LastUpdate
      UpdateProgressPercentage :=
        (jInt (kvs.lookup "UpdateProgressPercentage")).getD init.UpdateProgressPercentage
      UpdateProgressStr := (jStr (kvs.lookup "UpdateProgressStr")).getD init.UpdateProgressStr }
  | _ => init

/-- WriteStateFile: marshal the record and overwrite the state file.  The
marshalling of this record never fails, and a disk write failure is an
environmental fault outside this model, so the returned error is none. -/
def WriteStateFile (s : SaltState) (_fs : FS) : FS × Option String :=
  (some (marshalSaltState s), none)

/-- ReadStateFile: if the state file does not exist, first create it with the
zero record; then read and unmarshal it into a zero record.  Decode problems
are only logged (the err returned is the read error, which the inner
unmarshal err shadows), so an existing file never yields an error here. -/
def ReadStateFile (fs : FS) : (SaltState × Option String) × FS :=
  match fs with
  | none =>
    let fs1 := (WriteStateFile zeroSaltState none).1
    match fs1 with
    | some j => ((unmarshalSaltState zeroSaltState j, none), fs1)
    | none => ((zeroSaltState, none), fs1)
  | some j => ((unmarshalSaltState zeroSaltState j, none), some j)

theorem allStrs_map_str (l : List String) : allStrs (l.map Json.str) = some l := by
  induction l with
  | nil => rfl
  | cons s r ih => simp [allStrs, ih]

/-- Unmarshalling an arbitrary marshalled record recovers it field for field. -/
theorem unmarshal_marshal (init s : SaltState) :
    unmarshalSaltState init (marshalSaltState s) = s := by
  cases s
  simp [marshalSaltState, unmarshalSaltState, List.lookup, jBool, jStr, jInt, jTime,
    jStrList, allStrs_map_str, Rat.den_intCast, Rat.num_intCast]

end saltrequester

/-! ## extractNumbers: the numeric-token scanner of cmd/salt-updater

Go regexp of an optional minus, a digit, then digits or commas, an optional
dot, then a class of digits and brace characters, used with FindAllString.
Every quantifier is greedy and everything after the first digit is optional,
so maximal munch with no backtracking is exact; matches are non-overlapping
and found left to right. -/

def isIntNumChar (c : Char) : Bool := c.isDigit || c = ','

def isFracNumChar (c : Char) : Bool := c.isDigit || c = '{' || c = '}'

/-- The part of a numeric token after its first digit, and the rest of the
input: digits or commas, then an optional dot followed by digits or braces. -/
def numTail (r : List Char) : List Char × List Char :=
  let q := spanP isIntNumChar r
  if q.2.head? = some '.' then
    let q2 := spanP isFracNumChar q.2.tail
    (q.1 ++ '.' :: q2.1, q2.2)
  else q

theorem numTail_snd_length_le (r : List Char) : (numTail r).2.length ≤ r.length := by
  have h0 := spanP_snd_length_le isIntNumChar r
  unfold numTail
  by_cases h : (spanP isIntNumChar r).2.head? = some '.'
  · have h1 := spanP_snd_length_le isFracNumChar (spanP isIntNumChar r).2.tail
    have h2 : (spanP isIntNumChar r).2.tail.length = (spanP isIntNumChar r).2.length - 1 :=
      List.length_tail _
    simp only [h, if_pos]
    omega
  · simp [h, h0]

/-- regexp.FindAllString of the numeric-token pattern: scan left to right,
emit each leftmost match greedily, continue after it.  The fuel argument
only makes the recursion structural: every step consumes at least one input
character (numTail never grows its input, by numTail_snd_length_le), so fuel
equal to the input length, as scanNums supplies, is never exhausted. -/
def scanNumsAux : Nat → List Char → List (List Char)
  | 0, _ => []
  | _ + 1, [] => []
  | fuel + 1, '-' :: c :: r =>
    if c.isDigit then
      ('-' :: c :: (numTail r).1) :: scanNumsAux fuel (numTail r).2
    else scanNumsAux fuel (c :: r)
  | fuel + 1, c :: r =>
    if c.isDigit then
      (c :: (numTail r).1) :: scanNumsAux fuel (numTail r).2
    else scanNumsAux fuel r

def scanNums (l : List Char) : List (List Char) :=
  scanNumsAux l.length l

/-- A float64 produced by strconv.ParseFloat on a scanned decimal token,
kept in exact decimal form: the value is mant divided by 10 to the frac10.
All values the program parses (small counts and short run times) are exact
in both this form and float64, and the order comparison the program makes
agrees with the real order of the values (GoFloat.lt_iff_toRat). -/
structure GoFloat where
  mant : Int
  frac10 : Nat
deriving DecidableEq, Repr

instance : OfNat GoFloat 0 := ⟨⟨0, 0⟩⟩

/-- Order of the represented values, by cross multiplication. -/
def GoFloat.lt (a b : GoFloat) : Prop :=
  a.mant * (10 ^ b.frac10 : Int) < b.mant * (10 ^ a.frac10 : Int)

instance : LT GoFloat := ⟨GoFloat.lt⟩

instance goFloatDecLt (a b : GoFloat) : Decidable (a < b) :=
  inferInstanceAs (Decidable (a.mant * (10 ^ b.frac10 : Int) < b.mant * (10 ^ a.frac10 : Int)))

/-- The rational value a GoFloat stands for. -/
def GoFloat.toRat (f : GoFloat) : ℚ :=
  (f.mant : ℚ) / (10 ^ f.frac10 : ℚ)

/-- The computational order on GoFloat is the order of the values. -/
theorem GoFloat.lt_iff_toRat (a b : GoFloat) : a < b ↔ a.toRat < b.toRat := by
  show GoFloat.lt a b ↔ _
  unfold GoFloat.lt GoFloat.toRat
  rw [div_lt_div_iff₀ (by positivity) (by positivity)]
  constructor <;> intro h <;> exact_mod_cast h

/-- strconv.ParseFloat of one scanned token, with the error ignored as in the
source: a token still containing a comma or brace fails to parse and its
value stays 0; otherwise the token is a plain decimal literal. -/
def parseGoFloat (tok : List Char) : GoFloat :=
  if tok.any (fun c => c = ',' || c = '{' || c = '}') then ⟨0, 0⟩
  else
    let core : List Char → GoFloat := fun t =>
      let q := spanP Char.isDigit t
      if q.2.head? = some '.' then
        let fr := q.2.tail
        ⟨(digitsToNat (q.1 ++ fr) : Int), fr.length⟩
      else ⟨(digitsToNat q.1 : Int), 0⟩
    match tok with
    | '-' :: t => ⟨-(core t).mant, (core t).frac10⟩
    | t => core t

/-- extractNumbers from cmd/salt-updater/main.go. -/
def extractNumbers (str : String) : List GoFloat :=
  (scanNums str.toList).map parseGoFloat

/-! ## makeEventFromState: outcome-event construction -/

/-- The four summary values scanned out of the captured salt output
(declared as zero-initialised float64 variables in the source). -/
structure Summary where
  succeeded : GoFloat
  changed : GoFloat
  failed : GoFloat
  runTime : GoFloat
deriving DecidableEq, Repr

/-- One iteration of the line loop of makeEventFromState: the three prefix
checks in source order, each failing the whole construction when its line is
present with the wrong number of numeric tokens. -/
def scanLine (acc : Summary) (line : String) : Except String Summary :=
  let s1 : Except String Summary :=
    if goHasPfx "Succeeded:" line then
      match extractNumbers line with
      | [n0, n1] => .ok { acc with succeeded := n0, changed := n1 }
      | _ => .error "failed to parse output of salt update"
    else .ok acc
  match s1 with
  | .error e => .error e
  | .ok a1 =>
    let s2 : Except String Summary :=
      if goHasPfx "Failed:" line then
        match extractNumbers line with
        | [n0] => .ok { a1 with failed := n0 }
        | _ => .error "failed to parse output of salt update"
      else .ok a1
    match s2 with
    | .error e => .error e
    | .ok a2 =>
      if goHasPfx "Total run time:" line then
        match extractNumbers line with
        | [n0] => .ok { a2 with runTime := n0 }
        | _ => .error "failed to parse output of salt update"
      else .ok a2

/-- The whole line loop of makeEventFromState over strings.Split(out, newline). -/
def parseSaltOutput (out : String) : Except String Summary :=
  (splitLines out).foldlM scanLine ⟨0, 0, 0, 0⟩

/-- Values stored in the Details map of an emitted event. -/
inductive DetailValue where
  | num (q : GoFloat)
  | str (s : String)
  | bool (b : Bool)
  | args (l : List String)
deriving DecidableEq, Repr

/-- eventclient.Event restricted to what the program sets. -/
structure Event where
  Timestamp : Int
  Details : List (String × DetailValue)
  «Type» : String
deriving DecidableEq, Repr

/-- Whether an Except value is an error. -/
def exIsError {α : Type} : Except String α → Bool
  | .error _ => true
  | .ok _ => false

instance exceptDecEq {ε α : Type} [DecidableEq ε] [DecidableEq α] :
    DecidableEq (Except ε α) := fun x y =>
  match x, y with
  | .error e, .error f =>
    if h : e = f then isTrue (by rw [h])
    else isFalse (by intro hfx; injection hfx; contradiction)
  | .ok a, .ok b =>
    if h : a = b then isTrue (by rw [h])
    else isFalse (by intro hfx; injection hfx; contradiction)
  | .error _, .ok _ => isFalse (fun hfx => Except.noConfusion hfx)
  | .ok _, .error _ => isFalse (fun hfx => Except.noConfusion hfx)

/-- The Details association list of a successfully built event (empty on error). -/
def detailsOf : Except String Event → List (String × DetailValue)
  | .ok ev => ev.Details
  | .error _ => []

/-- makeEventFromState from cmd/salt-updater/main.go.  The global minionID and
the wall clock read by time.Now are passed explicitly. -/
def makeEventFromState (minionID : String) (now : Int) (state : saltrequester.SaltState) :
    Except String Event :=
  match parseSaltOutput state.LastCallOut with
  | .error e => .error e
  | .ok su =>
    let base := [("changed", DetailValue.num su.changed),
                 ("failed", DetailValue.num su.failed),
                 ("succeeded", DetailValue.num su.succeeded),
                 ("nodegroup", DetailValue.str state.LastCallNodegroup),
                 ("success", DetailValue.bool state.LastCallSuccess),
                 ("args", DetailValue.args state.LastCallArgs),
                 ("minionID", DetailValue.str minionID)]
    let details :=
      if 0 < su.failed ∨ state.LastCallSuccess = false then
        base ++ [("out", DetailValue.str state.LastCallOut),
                 ("runTime", DetailValue.num su.runTime)]
      else base
    .ok { Timestamp := now, Details := details, «Type» := "salt-update" }

/-- A summary line that is present but yields the wrong number of numeric
tokens, which makeEventFromState rejects. -/
def badSummaryLine (line : String) : Bool :=
  (goHasPfx "Succeeded:" line && (extractNumbers line).length != 2)
    || (goHasPfx "Failed:" line && (extractNumbers line).length != 1)
    || (goHasPfx "Total run time:" line && (extractNumbers line).length != 1)

/-! ## runSaltCallSync and runSaltCall: the call-execution core -/

/-- The external effects consumed by one salt call: the combined output and
exit status of the salt-call subprocess, the nodegroup file read (none on
read failure), the result of handing the event to the event pipeline, and
the globals used for event construction. -/
structure CallEnv where
  execOut : String
  execOk : Bool
  nodegroupFile : Option String
  addEventErr : Option String
  minionID : String
  now : Int

/-- runSaltCallSync from cmd/salt-updater/main.go: the guard against a call
already running, then the subprocess, the state-record updates in source
order, persisting the record, and for update calls the outcome event.  The
transient window in which RunningUpdate and RunningArgs are set is internal
to the call and not an observation point of this sequential model; the write
of the state file is modelled by saltrequester.WriteStateFile and its error
is only logged.  Returns the state record, the returned error, and the state
file. -/
def runSaltCallSync (env : CallEnv) (fs : saltrequester.FS) (s : saltrequester.SaltState)
    (args : List String) (updateCall : Bool) (updateTime : Int) :
    saltrequester.SaltState × Option String × saltrequester.FS :=
  if s.RunningUpdate then
    (s, some "failed to run salt call as one is already running", fs)
  else
    let s2 := { s with RunningUpdate := false, RunningArgs := ([] : List String),
                       LastCallSuccess := env.execOk, LastCallOut := env.execOut }
    let s3 :=
      if updateCall && s2.LastCallSuccess && (updateTime != 0) then
        { s2 with LastUpdate := updateTime }
      else s2
    let s4 := { s3 with
                LastCallNodegroup :=
                  (match env.nodegroupFile with
                   | some ng => ng
                   | none => "error reading nodegroup")
                LastCallArgs := args }
    let fs2 := (saltrequester.WriteStateFile s4 fs).1
    if updateCall then
      match makeEventFromState env.minionID env.now s4 with
      | .error e => (s4, some e, fs2)
      | .ok _ => (s4, env.addEventErr, fs2)
    else (s4, none, fs2)

/-- runSaltCall from cmd/salt-updater/main.go: the fire-and-forget entry
point drops the request when a call is running, otherwise it runs the same
synchronous body on a background task; its result is discarded.  Returns the
state record and the state file. -/
def runSaltCall (env : CallEnv) (fs : saltrequester.FS) (s : saltrequester.SaltState)
    (args : List String) (updateCall : Bool) (updateTime : Int) :
    saltrequester.SaltState × saltrequester.FS :=
  if s.RunningUpdate then (s, fs)
  else
    let r := runSaltCallSync env fs s args updateCall updateTime
    (r.1, r.2.2)

/-! ## trackUpdateProgress: the log-tailing progress estimator -/

/-- The white space class of the Go regexp engine. -/
def isReSpace (c : Char) : Bool :=
  c = ' ' || c = '\t' || c = '\n' || c = '\x0c' || c = '\r'

/-- Drop an expected literal from the head of the input, or fail. -/
def dropLit : List Char → List Char → Option (List Char)
  | [], l => some l
  | c :: cs, d :: l => if c = d then dropLit cs l else none
  | _ :: _, [] => none

/-- The rest of the state-start pattern after its INFO literal: one or more
white space characters, the two bracket characters, one or more digits, the
literal bracket-space-Running state-space-bracket, then a greedy capture
that ends at the last closing bracket on the line (the dot of the capture
group does not cross a newline). -/
def matchAfterINFO (l : List Char) : Option String :=
  let w := spanP isReSpace l
  if w.1.isEmpty then none
  else
    match w.2 with
    | ']' :: '[' :: r2 =>
      let q := spanP Char.isDigit r2
      if q.1.isEmpty then none
      else
        match dropLit "] Running state [".toList q.2 with
        | none => none
        | some r4 =>
          let seg := r4.takeWhile (fun c => c ≠ '\n')
          match seg.reverse.dropWhile (fun c => c ≠ ']') with
          | [] => none
          | _ :: rest => some ⟨rest.reverse⟩
    | _ => none

/-- Attempt the whole state-start pattern at this position. -/
def tryStateReAt (l : List Char) : Option String :=
  match dropLit "INFO".toList l with
  | some l2 => matchAfterINFO l2
  | none => none

/-- Scan the positions of a line left to right for the first match. -/
def reScanAux : List Char → Option String
  | [] => none
  | c :: r =>
    match tryStateReAt (c :: r) with
    | some cap => some cap
    | none => reScanAux r

/-- The capture group of the state-start regexp of trackUpdateProgress on one
log line, none when the line does not match.  (The length check on the
submatch slice in the source is dead code: a match of this pattern always
carries exactly one capture group.) -/
def stateReCapture (line : String) : Option String :=
  reScanAux line.toList

/-- The totalStates estimate of trackUpdateProgress: the integer persisted in
/etc/cacophony/salt-states-count (none when the read fails), defaulting to
100 when absent or unparseable, plus the fixed margin of 5. -/
def initTotalStates (content : Option String) : Int :=
  (match goAtoi (goTrimSpace (content.getD "")) with
   | some n => n
   | none => 100) + 5

/-- One iteration of the line loop of trackUpdateProgress on a matching or
non-matching line, over the state record paired with the observed count. -/
def processLogLine (totalStates : Int) (st : saltrequester.SaltState × Int) (line : String) :
    saltrequester.SaltState × Int :=
  match stateReCapture line with
  | none => st
  | some name =>
    let c := st.2 + 1
    ({ st.1 with UpdateProgressPercentage := Int.tdiv (100 * c) totalStates,
                 UpdateProgressStr := name }, c)

/-- trackUpdateProgress over the sequence of new log lines it reads before
being stopped: the progress fields are first reset to the initializing
state, then every line is processed in order. -/
def trackLines (totalStates : Int) (s : saltrequester.SaltState) (lines : List String) :
    saltrequester.SaltState × Int :=
  lines.foldl (processLogLine totalStates)
    ({ s with UpdateProgressPercentage := 0, UpdateProgressStr := "Initializing update..." }, 0)

/-! ## Package saltrequester: remote version check and the RunUpdate gate -/

namespace saltrequester

/-- The static node-group-to-branch map of the package. -/
def nodeGroupToBranch : List (String × String) :=
  [("tc2-dev", "dev"), ("tc2-test", "test"), ("tc2-prod", "prod"),
   ("dev-pis", "dev"), ("test-pis", "test"), ("prod-pis", "prod")]

def saltVersionUrl : String :=
  "https://raw.githubusercontent.com/TheCacophonyProject/salt-version-info/refs/heads/main/salt-version-info.json"

/-- An HTTP response for the manifest fetch: the status code and the body,
already decoded from bytes to a JSON value (the error carries the message of
a body read failure or of json.Unmarshal on invalid JSON). -/
structure HttpResp where
  statusCode : Int
  body : Except String Json

/-- Environment of UpdateExistsForNodeGroup: the state file it reads and the
outcome of http.Get on the manifest URL (the error is a transport error). -/
structure UpdateEnv where
  fs : FS
  httpResult : Except String HttpResp

/-- Result of UpdateExistsForNodeGroup.  The two single-value type
assertions in the source panic when the branch entry or its tc2 entry is
JSON but not a JSON object; that outcome is the panic constructor. -/
inductive UpdateCheckResult where
  | panic
  | ret (available : Bool) (updateTime : Int) (err : Option String)
deriving DecidableEq, Repr

/-- UpdateExistsForNodeGroup from saltrequester.go: trim one trailing
newline off the node group, map it to a branch (failing when absent), read
the local state file ignoring its error, fetch and decode the manifest,
locate branch -> tc2 -> commitDate, parse the timestamp, and report whether
it is strictly after the recorded LastUpdate, returning the parsed time.
The %v renderings of whole JSON values inside some error messages are not
reproduced; the mapping-error message is exact. -/
def UpdateExistsForNodeGroup (env : UpdateEnv) (nodeGroup : String) : UpdateCheckResult :=
  let ng := trimNewlineSuffix nodeGroup
  match nodeGroupToBranch.lookup ng with
  | none => .ret false 0 (some ("cant find a salt branch  mapping for " ++ ng ++ " nodegroup"))
  | some branch =>
    let saltState := (ReadStateFile env.fs).1.1
    match env.httpResult with
    | .error e => .ret false 0 (some e)
    | .ok resp =>
      if resp.statusCode < 200 ∨ 300 ≤ resp.statusCode then
        .ret false 0 (some ("bad update status check " ++ toString resp.statusCode
          ++ " from url " ++ saltVersionUrl))
      else
        match resp.body with
        | .error e => .ret false 0 (some e)
        | .ok j =>
          match j with
          | .obj details =>
            match details.lookup branch with
            | none => .ret false 0 (some ("Could not find " ++ branch ++ " key in json"))
            | some branchDetails =>
              match branchDetails with
              | .obj bd =>
                match bd.lookup "tc2" with
                | none => .ret false 0 (some "Could not find tc2 key in json")
                | some tc2 =>
                  match tc2 with
                  | .obj t2 =>
                    match t2.lookup "commitDate" with
                    | some (.str commitDate) =>
                      match timeParse commitDate with
                      | none => .ret false 0 (some "parsing time error")
                      | some t => .ret (decide (saltState.LastUpdate < t)) t none
                    | _ => .ret false 0 (some "Could not find commitDate key in json ")
                  | _ => .panic
              | _ => .panic
          | _ => .ret false 0 (some "json: cannot unmarshal body into map")

/-- Environment of the older RunUpdate of saltrequester.go: the pair
returned by updateExists, the error of getDbusObj (none on success), and the
error of the dbus RunUpdate call itself. -/
structure RunUpdateEnv where
  updateExistsResult : Bool × Option String
  getDbusObjErr : Option String
  callStoreErr : Option String

/-- What RunUpdate did: whether the dbus RunUpdate method was actually
requested, and the error it returned. -/
structure RunUpdateOutcome where
  requested : Bool
  err : Option String
deriving DecidableEq, Repr

/-- The dbus phase of RunUpdate: acquire the bus object and call RunUpdate. -/
def runUpdateDbusPhase (env : RunUpdateEnv) : RunUpdateOutcome :=
  match env.getDbusObjErr with
  | some e => { requested := false, err := some e }
  | none => { requested := true, err := env.callStoreErr }

/-- RunUpdate from saltrequester.go: run updateExists first; when it errors
the error is only logged and the update proceeds anyway; only a clean
no-update-available answer returns early without calling the dbus service. -/
def RunUpdate (env : RunUpdateEnv) : RunUpdateOutcome :=
  if env.updateExistsResult.2 = none ∧ env.updateExistsResult.1 = false then
    { requested := false, err := none }
  else runUpdateDbusPhase env

end saltrequester

/-! ## Claims -/

/-- C1: for every sequence of calls, at most one salt call is in flight: a
synchronous call invoked while the running flag is true returns the call
already in progress error and leaves the state record (in particular
RunningArgs and LastCallOut) and the state file unchanged, and a
fire-and-forget call invoked while the running flag is true returns without
starting anything. -/
theorem claim_c1_at_most_one_call (env : CallEnv) (fs : saltrequester.FS)
    (s : saltrequester.SaltState) (args : List String) (updateCall : Bool) (updateTime : Int)
    (h : s.RunningUpdate = true) :
    runSaltCallSync env fs s args updateCall updateTime
        = (s, some "failed to run salt call as one is already running", fs)
    ∧ (runSaltCallSync env fs s args updateCall updateTime).1.RunningArgs = s.RunningArgs
    ∧ (runSaltCallSync env fs s args updateCall updateTime).1.LastCallOut = s.LastCallOut
    ∧ runSaltCall env fs s args updateCall updateTime = (s, fs) := by
  refine ⟨?_, ?_, ?_, ?_⟩ <;> simp [runSaltCallSync, runSaltCall, h]

/-- A call environment used to instantiate the claims at concrete inputs. -/
def envW : CallEnv :=
  { execOut := "ok", execOk := true, nodegroupFile := some "tc2-dev",
    addEventErr := none, minionID := "minion-1", now := 7 }

/-- A state record with a call currently in flight. -/
def runningState : saltrequester.SaltState :=
  { saltrequester.zeroSaltState with
      RunningUpdate := true, RunningArgs := ["state.apply"], LastCallOut := "previous" }

theorem claim_c1_witness :
    runSaltCallSync envW none runningState ["test.ping"] false 0
        = (runningState, some "failed to run salt call as one is already running", none)
    ∧ (runSaltCallSync envW none runningState ["test.ping"] false 0).1.RunningArgs
        = runningState.RunningArgs
    ∧ (runSaltCallSync envW none runningState ["test.ping"] false 0).1.LastCallOut
        = runningState.LastCallOut
    ∧ runSaltCall envW none runningState ["test.ping"] false 0 = (runningState, none) :=
  claim_c1_at_most_one_call envW none runningState ["test.ping"] false 0 (by rfl)

/-- C5: the LastUpdate watermark of the state record after a call equals the
supplied timestamp exactly when the call actually ran as an update call, the
salt-call invocation succeeded and the supplied completion timestamp was
non-zero; in every other case (rejected call, ping, failed call, zero
timestamp) it keeps its previous value. -/
theorem claim_c5_watermark_frame (env : CallEnv) (fs : saltrequester.FS)
    (s : saltrequester.SaltState) (args : List String) (updateCall : Bool) (updateTime : Int) :
    (runSaltCallSync env fs s args updateCall updateTime).1.LastUpdate =
      if s.RunningUpdate = false ∧ updateCall = true ∧ env.execOk = true ∧ updateTime ≠ 0 then
        updateTime
      else s.LastUpdate := by
  cases hr : s.RunningUpdate with
  | true => simp [runSaltCallSync, hr]
  | false =>
    cases hu : updateCall with
    | false => simp [runSaltCallSync, hr, hu]
    | true =>
      cases he : env.execOk with
      | false =>
        simp [runSaltCallSync, hr, hu, he]
        split <;> rfl
      | true =>
        by_cases ht : updateTime = 0
        · subst ht
          simp [runSaltCallSync, hr, hu, he]
          split <;> rfl
        · have htb : (updateTime != 0) = true := by simpa using ht
          simp [runSaltCallSync, hr, hu, he, htb, ht]
          split <;> rfl

/-- C6: if the update-availability check errors, RunUpdate proceeds to
request the salt update anyway (fail-open), behaving exactly as its dbus
phase; it returns cleanly without requesting the update exactly when the
check succeeded and reported that no newer version is available. -/
theorem claim_c6_fail_open (env : saltrequester.RunUpdateEnv) :
    ((env.updateExistsResult.2).isSome = true →
        saltrequester.RunUpdate env = saltrequester.runUpdateDbusPhase env)
    ∧ (saltrequester.RunUpdate env = { requested := false, err := none } ↔
        env.updateExistsResult = (false, none)) := by
  obtain ⟨⟨avail, cerr⟩, dbusErr, callErr⟩ := env
  constructor
  · intro hsome
    cases cerr with
    | none => simp at hsome
    | some e => simp [saltrequester.RunUpdate]
  · cases cerr with
    | none =>
      cases avail with
      | false => simp [saltrequester.RunUpdate]
      | true =>
        simp only [saltrequester.RunUpdate]
        simp [saltrequester.runUpdateDbusPhase]
        cases dbusErr <;> simp
    | some e =>
      simp only [saltrequester.RunUpdate]
      simp [saltrequester.runUpdateDbusPhase]
      cases dbusErr <;> simp

/-- An environment in which the availability check itself failed. -/
def runUpdateEnvW : saltrequester.RunUpdateEnv :=
  { updateExistsResult := (false, some "connection refused"),
    getDbusObjErr := none, callStoreErr := none }

theorem claim_c6_witness :
    saltrequester.RunUpdate runUpdateEnvW = saltrequester.runUpdateDbusPhase runUpdateEnvW :=
  (claim_c6_fail_open runUpdateEnvW).1 (by rfl)

/-- C7: a node-group identifier that, once a trailing newline is stripped,
is not a key of the static node-group-to-branch map makes the
update-availability check fail with the mapping error, with no fallback to
any default branch. -/
theorem claim_c7_unknown_nodegroup (env : saltrequester.UpdateEnv) (nodeGroup : String)
    (h : saltrequester.nodeGroupToBranch.lookup (trimNewlineSuffix nodeGroup) = none) :
    saltrequester.UpdateExistsForNodeGroup env nodeGroup =
      .ret false 0 (some ("cant find a salt branch  mapping for "
        ++ trimNewlineSuffix nodeGroup ++ " nodegroup")) := by
  simp [saltrequester.UpdateExistsForNodeGroup, h]

theorem claim_c7_witness :
    saltrequester.UpdateExistsForNodeGroup ⟨none, .error "unreachable"⟩ "pi-lab\n" =
      .ret false 0 (some ("cant find a salt branch  mapping for "
        ++ trimNewlineSuffix "pi-lab\n" ++ " nodegroup")) :=
  claim_c7_unknown_nodegroup ⟨none, .error "unreachable"⟩ "pi-lab\n" (by rfl)

/-- C10: writing any state record to the state file and then reading the
file back returns that record field for field (with no error and with the
file left as written). -/
theorem claim_c10_roundtrip (s : saltrequester.SaltState) (fs : saltrequester.FS) :
    saltrequester.ReadStateFile (saltrequester.WriteStateFile s fs).1 =
      ((s, none), (saltrequester.WriteStateFile s fs).1) := by
  simp [saltrequester.ReadStateFile, saltrequester.WriteStateFile,
    saltrequester.unmarshal_marshal]

/-- C4: with a branch mapping present and a well-formed manifest response
(2xx status, a JSON object whose branch entry has a tc2 object with a
parsable commitDate), the check returns the parsed published time together
with availability that holds exactly when that time is strictly after the
locally stored LastUpdate watermark. -/
theorem claim_c4_watermark_comparison (env : saltrequester.UpdateEnv)
    (nodeGroup branch : String) (resp : saltrequester.HttpResp)
    (details bd t2 : List (String × saltrequester.Json)) (commitDate : String) (t : Int)
    (hmap : saltrequester.nodeGroupToBranch.lookup (trimNewlineSuffix nodeGroup) = some branch)
    (hhttp : env.httpResult = .ok resp)
    (hstatus : 200 ≤ resp.statusCode ∧ resp.statusCode < 300)
    (hbody : resp.body = .ok (.obj details))
    (hbranch : details.lookup branch = some (.obj bd))
    (htc2 : bd.lookup "tc2" = some (.obj t2))
    (hcd : t2.lookup "commitDate" = some (.str commitDate))
    (ht : timeParse commitDate = some t) :
    saltrequester.UpdateExistsForNodeGroup env nodeGroup =
      .ret (decide ((saltrequester.ReadStateFile env.fs).1.1.LastUpdate < t)) t none := by
  have hs1 : ¬(resp.statusCode < 200 ∨ 300 ≤ resp.statusCode) := by omega
  simp [saltrequester.UpdateExistsForNodeGroup, hmap, hhttp, hs1, hbody, hbranch,
    htc2, hcd, ht]

/-- A concrete well-formed manifest for the dev branch. -/
def manifestW : List (String × saltrequester.Json) :=
  [("dev", .obj [("tc2", .obj [("commitDate", .str "0001-01-01T00:00:01Z")])])]

/-- A concrete 200 response carrying that manifest. -/
def respW : saltrequester.HttpResp := ⟨200, .ok (.obj manifestW)⟩

/-- A concrete check environment: state file with a zero watermark. -/
def updEnvW : saltrequester.UpdateEnv :=
  ⟨some (saltrequester.marshalSaltState saltrequester.zeroSaltState), .ok respW⟩

theorem claim_c4_witness :
    saltrequester.UpdateExistsForNodeGroup updEnvW "tc2-dev" =
      .ret (decide ((saltrequester.ReadStateFile updEnvW.fs).1.1.LastUpdate < 1)) 1 none :=
  claim_c4_watermark_comparison updEnvW "tc2-dev" "dev" respW manifestW
    [("tc2", .obj [("commitDate", .str "0001-01-01T00:00:01Z")])]
    [("commitDate", .str "0001-01-01T00:00:01Z")]
    "0001-01-01T00:00:01Z" 1 (by rfl) rfl (by decide) rfl (by rfl) (by rfl)
    (by rfl) (by rfl)

/-- The observed count after folding lines equals the number of lines
matching the state-start pattern (helper shared by the tracker claims). -/
theorem foldl_processLogLine_count (ts : Int) (lines : List String)
    (acc : saltrequester.SaltState × Int) :
    (lines.foldl (processLogLine ts) acc).2 =
      acc.2 + ((lines.countP (fun l => (stateReCapture l).isSome)) : Int) := by
  induction lines generalizing acc with
  | nil => simp
  | cons l r ih =>
    cases hc : stateReCapture l with
    | none =>
      rw [List.foldl_cons, ih]
      simp [processLogLine, hc, List.countP_cons]
    | some name =>
      rw [List.foldl_cons, ih]
      simp [processLogLine, hc, List.countP_cons]
      omega

/-- C8: the progress tracker initializes its denominator as the persisted
states-count integer plus 5 (105 when the file is missing or does not parse
as an integer), and each new line matching the Running state pattern bumps
the observed count by one, sets the percentage to 100 times the count
divided (truncated integer division) by the denominator, and sets the label
to the matched state name; non-matching lines change nothing, and over any
line sequence the final count is the number of matching lines. -/
theorem claim_c8_progress_tracker :
    (∀ content n, goAtoi (goTrimSpace content) = some n →
        initTotalStates (some content) = n + 5)
    ∧ (∀ content, goAtoi (goTrimSpace content) = none → initTotalStates (some content) = 105)
    ∧ initTotalStates none = 105
    ∧ (∀ (ts : Int) (st : saltrequester.SaltState × Int) (line name : String),
        stateReCapture line = some name →
        processLogLine ts st line =
          ({ st.1 with UpdateProgressPercentage := Int.tdiv (100 * (st.2 + 1)) ts,
                       UpdateProgressStr := name }, st.2 + 1))
    ∧ (∀ (ts : Int) (st : saltrequester.SaltState × Int) (line : String),
        stateReCapture line = none → processLogLine ts st line = st)
    ∧ (∀ (ts : Int) (s : saltrequester.SaltState) (lines : List String),
        (trackLines ts s lines).2 =
          ((lines.countP (fun l => (stateReCapture l).isSome)) : Int)) := by
  refine ⟨?_, ?_, ?_, ?_, ?_, ?_⟩
  · intro content n h; simp [initTotalStates, h]
  · intro content h; simp [initTotalStates, h]
  · rfl
  · intro ts st line name h; simp [processLogLine, h]
  · intro ts st line h; simp [processLogLine, h]
  · intro ts s lines
    rw [trackLines, foldl_processLogLine_count]
    simp

/-- A concrete log line matching the Running state pattern. -/
def stateLineX : String := "INFO ][1] Running state [x]"

theorem claim_c8_witness :
    initTotalStates (some " 100 ") = 100 + 5
    ∧ processLogLine 105 (saltrequester.zeroSaltState, 0) stateLineX =
        ({ saltrequester.zeroSaltState with
            UpdateProgressPercentage := Int.tdiv (100 * (0 + 1)) 105,
            UpdateProgressStr := "x" }, 0 + 1) :=
  ⟨claim_c8_progress_tracker.1 " 100 " 100 (by rfl),
   claim_c8_progress_tracker.2.2.2.1 105 (saltrequester.zeroSaltState, 0) stateLineX "x" (by rfl)⟩

set_option maxRecDepth 8000 in
/-- C9 fails as stated: starting from a persisted states count of 100 (so a
denominator of 105), 107 matching log lines drive the progress-percent field
of the state record to 101, above the claimed upper bound of 100. -/
theorem claim_c9_counterexample :
    ¬ ((trackLines (initTotalStates (some "100")) saltrequester.zeroSaltState
          (List.replicate 107 stateLineX)).1.UpdateProgressPercentage ≤ 100) := by
  decide

/-- The tracker fold keeps the percentage and count nonnegative when the
denominator is positive (helper shared by the amended C9 claim). -/
theorem foldl_processLogLine_nonneg (ts : Int) (hts : 0 < ts) (lines : List String)
    (acc : saltrequester.SaltState × Int)
    (h1 : 0 ≤ acc.1.UpdateProgressPercentage) (h2 : 0 ≤ acc.2) :
    0 ≤ (lines.foldl (processLogLine ts) acc).1.UpdateProgressPercentage
    ∧ 0 ≤ (lines.foldl (processLogLine ts) acc).2 := by
  induction lines generalizing acc with
  | nil => exact ⟨h1, h2⟩
  | cons l r ih =>
    rw [List.foldl_cons]
    cases hc : stateReCapture l with
    | none =>
      exact ih _ (by simpa [processLogLine, hc] using h1)
        (by simpa [processLogLine, hc] using h2)
    | some name =>
      apply ih
      · simp only [processLogLine, hc]
        exact Int.tdiv_nonneg (by omega) (le_of_lt hts)
      · simp only [processLogLine, hc]
        omega

/-- C9 amended: in every state the tracker produces, the progress-percent
field is a nonnegative integer whenever the persisted states-count file is
absent, unparseable, or holds a nonnegative integer; it is not, however,
bounded above by 100 (the computation 100 times count over total is not
capped, as the counterexample shows). -/
theorem claim_c9_amended_nonneg (content : Option String) (s : saltrequester.SaltState)
    (lines : List String)
    (h : ∀ n, goAtoi (goTrimSpace (content.getD "")) = some n → 0 ≤ n) :
    0 ≤ (trackLines (initTotalStates content) s lines).1.UpdateProgressPercentage := by
  have hts : 0 < initTotalStates content := by
    unfold initTotalStates
    cases hg : goAtoi (goTrimSpace (content.getD "")) with
    | none => simp
    | some n => have := h n hg; simp; omega
  exact (foldl_processLogLine_nonneg (initTotalStates content) hts lines _
    (by simp) (by simp)).1

theorem claim_c9_amended_witness :
    0 ≤ (trackLines (initTotalStates (some "100")) saltrequester.zeroSaltState
          [stateLineX]).1.UpdateProgressPercentage :=
  claim_c9_amended_nonneg (some "100") saltrequester.zeroSaltState [stateLineX]
    (by
      intro n hn
      rw [show goAtoi (goTrimSpace ((some "100").getD "")) = some (100 : Int) from by rfl] at hn
      simp at hn
      omega)

/-- One line makes scanLine fail exactly when it is a bad summary line. -/
theorem scanLine_error_iff (acc : Summary) (line : String) :
    exIsError (scanLine acc line) = badSummaryLine line := by
  unfold scanLine badSummaryLine
  rcases el : extractNumbers line with _ | ⟨a, _ | ⟨b, _ | ⟨c, rest⟩⟩⟩ <;>
    cases h1 : goHasPfx "Succeeded:" line <;>
    cases h2 : goHasPfx "Failed:" line <;>
    cases h3 : goHasPfx "Total run time:" line <;>
      simp [exIsError, el, h1, h2, h3]

/-- The fold of scanLine fails exactly when some line is bad. -/
theorem foldlM_scanLine_error_iff (lines : List String) (acc : Summary) :
    exIsError (lines.foldlM scanLine acc) = lines.any badSummaryLine := by
  induction lines generalizing acc with
  | nil => rfl
  | cons l r ih =>
    rw [List.foldlM_cons]
    cases hs : scanLine acc l with
    | error e =>
      have hb : badSummaryLine l = true := by
        rw [← scanLine_error_iff acc l, hs]; rfl
      show exIsError (Except.error e) = (l :: r).any badSummaryLine
      simp [exIsError, hb]
    | ok a1 =>
      have hb : badSummaryLine l = false := by
        rw [← scanLine_error_iff acc l, hs]; rfl
      show exIsError (List.foldlM scanLine a1 r) = (l :: r).any badSummaryLine
      simp [hb, ih]

/-- A line without the Succeeded prefix leaves succeeded and changed alone. -/
theorem scanLine_preserve_succ (acc : Summary) (line : String) (a : Summary)
    (h : goHasPfx "Succeeded:" line = false) (hok : scanLine acc line = .ok a) :
    a.succeeded = acc.succeeded ∧ a.changed = acc.changed := by
  unfold scanLine at hok
  rcases el : extractNumbers line with _ | ⟨x, _ | ⟨y, rest⟩⟩ <;>
    cases h2 : goHasPfx "Failed:" line <;>
    cases h3 : goHasPfx "Total run time:" line <;>
      simp [h, h2, h3, el] at hok <;>
      simp [← hok]

/-- A line without the Failed prefix leaves failed alone. -/
theorem scanLine_preserve_failed (acc : Summary) (line : String) (a : Summary)
    (h : goHasPfx "Failed:" line = false) (hok : scanLine acc line = .ok a) :
    a.failed = acc.failed := by
  unfold scanLine at hok
  rcases el : extractNumbers line with _ | ⟨x, _ | ⟨y, _ | ⟨z, rest⟩⟩⟩ <;>
    cases h1 : goHasPfx "Succeeded:" line <;>
    cases h3 : goHasPfx "Total run time:" line <;>
      simp [h, h1, h3, el] at hok <;>
      simp [← hok]

/-- A line without the Total run time prefix leaves runTime alone. -/
theorem scanLine_preserve_runtime (acc : Summary) (line : String) (a : Summary)
    (h : goHasPfx "Total run time:" line = false) (hok : scanLine acc line = .ok a) :
    a.runTime = acc.runTime := by
  unfold scanLine at hok
  rcases el : extractNumbers line with _ | ⟨x, _ | ⟨y, _ | ⟨z, rest⟩⟩⟩ <;>
    cases h1 : goHasPfx "Succeeded:" line <;>
    cases h2 : goHasPfx "Failed:" line <;>
      simp [h, h1, h2, el] at hok <;>
      simp [← hok]

/-- Folding lines none of which carries the Succeeded prefix leaves the
succeeded and changed accumulators alone. -/
theorem foldlM_scanLine_preserve_succ (lines : List String) (acc res : Summary)
    (h : lines.all (fun l => !goHasPfx "Succeeded:" l) = true)
    (hok : lines.foldlM scanLine acc = .ok res) :
    res.succeeded = acc.succeeded ∧ res.changed = acc.changed := by
  induction lines generalizing acc with
  | nil =>
    rw [show List.foldlM scanLine acc ([] : List String) = .ok acc from rfl] at hok
    cases hok
    exact ⟨rfl, rfl⟩
  | cons l r ih =>
    rw [List.foldlM_cons] at hok
    rw [List.all_cons] at h
    cases hs : scanLine acc l with
    | error e =>
      rw [hs] at hok
      exact absurd hok (by simp [show (Except.error e >>= fun b => List.foldlM scanLine b r)
        = (Except.error e : Except String Summary) from rfl])
    | ok a1 =>
      rw [hs] at hok
      have hok2 : List.foldlM scanLine a1 r = .ok res := hok
      have hpre := scanLine_preserve_succ acc l a1
        (by simpa using (Bool.and_elim_left h)) hs
      have hrec := ih a1 (Bool.and_elim_right h) hok2
      exact ⟨hrec.1.trans hpre.1, hrec.2.trans hpre.2⟩

/-- Folding lines none of which carries the Failed prefix leaves failed alone. -/
theorem foldlM_scanLine_preserve_failed (lines : List String) (acc res : Summary)
    (h : lines.all (fun l => !goHasPfx "Failed:" l) = true)
    (hok : lines.foldlM scanLine acc = .ok res) :
    res.failed = acc.failed := by
  induction lines generalizing acc with
  | nil =>
    rw [show List.foldlM scanLine acc ([] : List String) = .ok acc from rfl] at hok
    cases hok
    exact rfl
  | cons l r ih =>
    rw [List.foldlM_cons] at hok
    rw [List.all_cons] at h
    cases hs : scanLine acc l with
    | error e =>
      rw [hs] at hok
      exact absurd hok (by simp [show (Except.error e >>= fun b => List.foldlM scanLine b r)
        = (Except.error e : Except String Summary) from rfl])
    | ok a1 =>
      rw [hs] at hok
      have hok2 : List.foldlM scanLine a1 r = .ok res := hok
      have hpre := scanLine_preserve_failed acc l a1
        (by simpa using (Bool.and_elim_left h)) hs
      exact (ih a1 (Bool.and_elim_right h) hok2).trans hpre

/-- Folding lines none of which carries the Total run time prefix leaves
runTime alone. -/
theorem foldlM_scanLine_preserve_runtime (lines : List String) (acc res : Summary)
    (h : lines.all (fun l => !goHasPfx "Total run time:" l) = true)
    (hok : lines.foldlM scanLine acc = .ok res) :
    res.runTime = acc.runTime := by
  induction lines generalizing acc with
  | nil =>
    rw [show List.foldlM scanLine acc ([] : List String) = .ok acc from rfl] at hok
    cases hok
    exact rfl
  | cons l r ih =>
    rw [List.foldlM_cons] at hok
    rw [List.all_cons] at h
    cases hs : scanLine acc l with
    | error e =>
      rw [hs] at hok
      exact absurd hok (by simp [show (Except.error e >>= fun b => List.foldlM scanLine b r)
        = (Except.error e : Except String Summary) from rfl])
    | ok a1 =>
      rw [hs] at hok
      have hok2 : List.foldlM scanLine a1 r = .ok res := hok
      have hpre := scanLine_preserve_runtime acc l a1
        (by simpa using (Bool.and_elim_left h)) hs
      exact (ih a1 (Bool.and_elim_right h) hok2).trans hpre

/-- C2: event construction from a captured output fails exactly when some
line starting with Succeeded yields a numeric-token count other than 2, or
some line starting with Failed or Total run time yields a count other than
1; absence of a summary line is never itself a failure, and when
construction succeeds the field of an absent line is left at zero. -/
theorem claim_c2_strict_line_parsing (minionID : String) (now : Int)
    (state : saltrequester.SaltState) :
    (exIsError (makeEventFromState minionID now state)
        = (splitLines state.LastCallOut).any badSummaryLine)
    ∧ (∀ su : Summary, parseSaltOutput state.LastCallOut = .ok su →
        (((splitLines state.LastCallOut).all
            (fun l => !goHasPfx "Succeeded:" l)) = true →
          su.succeeded = 0 ∧ su.changed = 0)
        ∧ (((splitLines state.LastCallOut).all
            (fun l => !goHasPfx "Failed:" l)) = true → su.failed = 0)
        ∧ (((splitLines state.LastCallOut).all
            (fun l => !goHasPfx "Total run time:" l)) = true → su.runTime = 0)) := by
  constructor
  · have h := foldlM_scanLine_error_iff (splitLines state.LastCallOut) ⟨0, 0, 0, 0⟩
    unfold makeEventFromState
    cases hp : parseSaltOutput state.LastCallOut with
    | error e =>
      unfold parseSaltOutput at hp
      rw [hp] at h
      exact h
    | ok su =>
      unfold parseSaltOutput at hp
      rw [hp] at h
      exact h
  · intro su hsu
    unfold parseSaltOutput at hsu
    refine ⟨?_, ?_, ?_⟩
    · intro hall
      exact foldlM_scanLine_preserve_succ (splitLines state.LastCallOut) ⟨0, 0, 0, 0⟩
        su hall hsu
    · intro hall
      exact foldlM_scanLine_preserve_failed (splitLines state.LastCallOut) ⟨0, 0, 0, 0⟩
        su hall hsu
    · intro hall
      exact foldlM_scanLine_preserve_runtime (splitLines state.LastCallOut) ⟨0, 0, 0, 0⟩
        su hall hsu

/-- A state whose captured output has a Failed line but no Succeeded and no
Total run time line. -/
def stW2 : saltrequester.SaltState :=
  { saltrequester.zeroSaltState with LastCallOut := "abc\nFailed: 3\n" }

theorem claim_c2_witness :
    (⟨0, 0, ⟨3, 0⟩, 0⟩ : Summary).succeeded = 0
    ∧ (⟨0, 0, ⟨3, 0⟩, 0⟩ : Summary).changed = 0 :=
  ((claim_c2_strict_line_parsing "m" 0 stW2).2 ⟨0, 0, ⟨3, 0⟩, 0⟩ (by decide)).1 (by decide)

/-- C3: a successfully constructed update event always carries the changed,
failed, succeeded, nodegroup, success and args fields; it carries the full
raw output under out and the elapsed run time under runTime exactly when the
parsed failed count is positive or the call did not succeed, and omits both
on a clean success. -/
theorem claim_c3_event_details (minionID : String) (now : Int)
    (state : saltrequester.SaltState) (su : Summary)
    (h : parseSaltOutput state.LastCallOut = .ok su) :
    exIsError (makeEventFromState minionID now state) = false
    ∧ (detailsOf (makeEventFromState minionID now state)).lookup "changed"
        = some (.num su.changed)
    ∧ (detailsOf (makeEventFromState minionID now state)).lookup "failed"
        = some (.num su.failed)
    ∧ (detailsOf (makeEventFromState minionID now state)).lookup "succeeded"
        = some (.num su.succeeded)
    ∧ (detailsOf (makeEventFromState minionID now state)).lookup "nodegroup"
        = some (.str state.LastCallNodegroup)
    ∧ (detailsOf (makeEventFromState minionID now state)).lookup "success"
        = some (.bool state.LastCallSuccess)
    ∧ (detailsOf (makeEventFromState minionID now state)).lookup "args"
        = some (.args state.LastCallArgs)
    ∧ ((0 < su.failed ∨ state.LastCallSuccess = false) →
        (detailsOf (makeEventFromState minionID now state)).lookup "out"
            = some (.str state.LastCallOut)
        ∧ (detailsOf (makeEventFromState minionID now state)).lookup "runTime"
            = some (.num su.runTime))
    ∧ (¬(0 < su.failed ∨ state.LastCallSuccess = false) →
        (detailsOf (makeEventFromState minionID now state)).lookup "out" = none
        ∧ (detailsOf (makeEventFromState minionID now state)).lookup "runTime" = none) := by
  have hev : makeEventFromState minionID now state =
      .ok { Timestamp := now,
            Details :=
              (if 0 < su.failed ∨ state.LastCallSuccess = false then
                [("changed", DetailValue.num su.changed),
                 ("failed", DetailValue.num su.failed),
                 ("succeeded", DetailValue.num su.succeeded),
                 ("nodegroup", DetailValue.str state.LastCallNodegroup),
                 ("success", DetailValue.bool state.LastCallSuccess),
                 ("args", DetailValue.args state.LastCallArgs),
                 ("minionID", DetailValue.str minionID)]
                ++ [("out", DetailValue.str state.LastCallOut),
                    ("runTime", DetailValue.num su.runTime)]
              else
                [("changed", DetailValue.num su.changed),
                 ("failed", DetailValue.num su.failed),
                 ("succeeded", DetailValue.num su.succeeded),
                 ("nodegroup", DetailValue.str state.LastCallNodegroup),
                 ("success", DetailValue.bool state.LastCallSuccess),
                 ("args", DetailValue.args state.LastCallArgs),
                 ("minionID", DetailValue.str minionID)]),
            «Type» := "salt-update" } := by
    unfold makeEventFromState
    rw [h]
  rw [hev]
  by_cases hc : 0 < su.failed ∨ state.LastCallSuccess = false
  · rw [if_pos hc]
    simp only [detailsOf]
    refine ⟨rfl, ?_, ?_, ?_, ?_, ?_, ?_, fun _ => ⟨?_, ?_⟩, fun hn => absurd hc hn⟩ <;>
      simp [List.lookup]
  · rw [if_neg hc]
    simp only [detailsOf]
    refine ⟨rfl, ?_, ?_, ?_, ?_, ?_, ?_, fun hp => absurd hp hc, fun _ => ⟨?_, ?_⟩⟩ <;>
      simp [List.lookup]

/-- The clean-success output of the spec example and repository test. -/
def stC3 : saltrequester.SaltState :=
  { saltrequester.zeroSaltState with
      LastCallSuccess := true
      LastCallNodegroup := "dev-pis"
      LastCallArgs := ["state.apply"]
      LastCallOut := "Succeeded: 106 (changed=5)\nFailed: 0\nTotal run time: 10.457 s" }

theorem claim_c3_witness :
    (detailsOf (makeEventFromState "m" 0 stC3)).lookup "out" = none
    ∧ (detailsOf (makeEventFromState "m" 0 stC3)).lookup "runTime" = none :=
  (claim_c3_event_details "m" 0 stC3 ⟨⟨106, 0⟩, ⟨5, 0⟩, ⟨0, 0⟩, ⟨10457, 3⟩⟩
      (by decide)).2.2.2.2.2.2.2.2
    (by decide)
